import Mathlib

/-!
Verification of the ReachGEN backend's pipeline orchestrator and its
result-parsing layer.  The definitions below are a shallow embedding of the
Python sources:

* `src/utils/parser.py`        — `InputEnhancerParser.parse`, `LeadPipelineParser`
* `src/utils/google_scraper.py`— `run_cse_scraper`
* `src/utils/playwright_scrap.py` — `clean_bing_url`
* `src/agents/Input_Enhancer.py`  — `generate_queries_and_domains`
* `src/agents/lead_finder.py`     — `research_companies`
* `src/graphs/graph_builder_2.py` — the three pipeline nodes and `main`
* `src/api/api_main.py`           — `run_lead_pipeline`

External collaborators (the LLM client, the Google CSE HTTP call, file-system
writes, the Supabase insert) are modelled as explicit parameters: an
`Except String _` value stands for "the call returned normally / raised an
exception", and a `Bool` flag stands for "this file write succeeded / raised".
Everything else is transcribed from the source.
-/

namespace ReachGen

/-! ### Python string primitives -/

/-- Characters stripped by Python's `str.strip()` (ASCII whitespace plus the
common one-byte Unicode spaces). -/
def pyWsChars : List Char := [' ', '\t', '\n', '\r', '\x0b', '\x0c', '\x85', '\xa0']

/-- Drop characters belonging to `set` from the front of a list. -/
def dropSet (set : List Char) (cs : List Char) : List Char :=
  cs.dropWhile (fun c => c ∈ set)

/-- Python `str.strip(set)`: remove characters of `set` from both ends. -/
def stripSet (set : List Char) (cs : List Char) : List Char :=
  (dropSet set (dropSet set cs).reverse).reverse

/-- Python `str.strip()` with no argument (whitespace strip). -/
def stripWs (cs : List Char) : List Char := stripSet pyWsChars cs

/-- Line-break characters recognised by Python `str.splitlines`
(other than the two-character sequence `\r\n`, handled separately). -/
def pyLineBreaks : List Char :=
  ['\n', '\r', '\x0b', '\x0c', '\x1c', '\x1d', '\x1e', '\x85', ' ', ' ']

/-- Worker for `splitlines`: `acc` holds the current line reversed. -/
def splitlinesAux : List Char → List Char → List (List Char)
  | [], acc => if acc.isEmpty then [] else [acc.reverse]
  | '\r' :: '\n' :: rest, acc => acc.reverse :: splitlinesAux rest []
  | c :: rest, acc =>
      if c ∈ pyLineBreaks then acc.reverse :: splitlinesAux rest []
      else splitlinesAux rest (c :: acc)

/-- Python `str.splitlines()` (no trailing empty line, `""` gives `[]`). -/
def splitlines (cs : List Char) : List (List Char) := splitlinesAux cs []

/-! ### JSON values and a model of `json.loads` -/

/-- JSON values as produced by Python's `json.loads`.  A number is kept as its
literal characters; object members are kept in textual order (duplicate keys
are resolved last-wins by `jgetLast`, as Python's dict construction does). -/
inductive Json where
  | null : Json
  | bool (b : Bool) : Json
  | num (lit : List Char) : Json
  | str (s : String) : Json
  | arr (elems : List Json) : Json
  | obj (members : List (String × Json)) : Json
deriving Repr

/-- Skip JSON whitespace (space, tab, newline, carriage return). -/
def skipWs : List Char → List Char
  | c :: cs =>
      if c = ' ' ∨ c = '\t' ∨ c = '\n' ∨ c = '\r' then skipWs cs else c :: cs
  | [] => []

def hexVal (c : Char) : Option Nat :=
  if '0' ≤ c ∧ c ≤ '9' then some (c.toNat - '0'.toNat)
  else if 'a' ≤ c ∧ c ≤ 'f' then some (c.toNat - 'a'.toNat + 10)
  else if 'A' ≤ c ∧ c ≤ 'F' then some (c.toNat - 'A'.toNat + 10)
  else none

/-- Parse the body of a JSON string literal (after the opening quote);
returns the decoded characters and the remainder after the closing quote. -/
def parseStrBody : List Char → Option (List Char × List Char)
  | '"' :: rest => some ([], rest)
  | '\\' :: e :: rest =>
      match e with
      | '"' => (parseStrBody rest).map (fun (s, r) => ('"' :: s, r))
      | '\\' => (parseStrBody rest).map (fun (s, r) => ('\\' :: s, r))
      | '/' => (parseStrBody rest).map (fun (s, r) => ('/' :: s, r))
      | 'b' => (parseStrBody rest).map (fun (s, r) => ('\x08' :: s, r))
      | 'f' => (parseStrBody rest).map (fun (s, r) => ('\x0c' :: s, r))
      | 'n' => (parseStrBody rest).map (fun (s, r) => ('\n' :: s, r))
      | 'r' => (parseStrBody rest).map (fun (s, r) => ('\r' :: s, r))
      | 't' => (parseStrBody rest).map (fun (s, r) => ('\t' :: s, r))
      | 'u' =>
          match rest with
          | h1 :: h2 :: h3 :: h4 :: rest' =>
              match hexVal h1, hexVal h2, hexVal h3, hexVal h4 with
              | some v1, some v2, some v3, some v4 =>
                  (parseStrBody rest').map
                    (fun (s, r) => (Char.ofNat (((v1 * 16 + v2) * 16 + v3) * 16 + v4) :: s, r))
              | _, _, _, _ => none
          | _ => none
      | _ => none
  | c :: rest =>
      if c.toNat < 0x20 then none
      else (parseStrBody rest).map (fun (s, r) => (c :: s, r))
  | [] => none

/-- Longest prefix of decimal digits. -/
def spanDigits (cs : List Char) : List Char × List Char :=
  (cs.takeWhile Char.isDigit, cs.dropWhile Char.isDigit)

/-- Parse a JSON number literal per the JSON grammar; returns the literal
characters consumed and the remainder. -/
def parseNum (cs : List Char) : Option (List Char × List Char) :=
  let (sign, cs1) :=
    match cs with
    | '-' :: r => (['-'], r)
    | _ => (([] : List Char), cs)
  match cs1 with
  | '0' :: r =>
      let (intPart, rest) := (['0'], r)
      some (numTail sign intPart rest)
  | c :: _ =>
      if c.isDigit then
        let (ds, rest) := spanDigits cs1
        some (numTail sign ds rest)
      else none
  | [] => none
where
  /-- Consume an optional fraction and exponent after the integer part. -/
  numTail (sign intPart : List Char) (rest : List Char) : List Char × List Char :=
    let (frac, rest1) :=
      match rest with
      | '.' :: d :: r =>
          if d.isDigit then
            let (ds, r') := spanDigits (d :: r)
            ('.' :: ds, r')
          else (([] : List Char), rest)
      | _ => (([] : List Char), rest)
    let (ex, rest2) :=
      match rest1 with
      | e :: r =>
          if e = 'e' ∨ e = 'E' then
            match r with
            | s :: d :: r' =>
                if (s = '+' ∨ s = '-') ∧ d.isDigit then
                  let (ds, r'') := spanDigits (d :: r')
                  (e :: s :: ds, r'')
                else if s.isDigit then
                  let (ds, r'') := spanDigits (s :: d :: r')
                  (e :: ds, r'')
                else (([] : List Char), rest1)
            | [s] =>
                if s.isDigit then ([e, s], ([] : List Char))
                else (([] : List Char), rest1)
            | [] => (([] : List Char), rest1)
          else (([] : List Char), rest1)
      | [] => (([] : List Char), rest1)
    (sign ++ intPart ++ frac ++ ex, rest2)

mutual

/-- Fuel-driven JSON value parser (model of Python's `json.loads` grammar). -/
def parseVal : Nat → List Char → Option (Json × List Char)
  | 0, _ => none
  | fuel + 1, cs =>
      match skipWs cs with
      | '\x7b' :: rest =>
          match skipWs rest with
          | '\x7d' :: r => some (.obj [], r)
          | cs' => (parseMembers fuel cs').map (fun (ms, r) => (.obj ms, r))
      | '[' :: rest =>
          match skipWs rest with
          | ']' :: r => some (.arr [], r)
          | cs' => (parseElems fuel cs').map (fun (es, r) => (.arr es, r))
      | '"' :: rest => (parseStrBody rest).map (fun (s, r) => (.str ⟨s⟩, r))
      | 't' :: 'r' :: 'u' :: 'e' :: rest => some (.bool true, rest)
      | 'f' :: 'a' :: 'l' :: 's' :: 'e' :: rest => some (.bool false, rest)
      | 'n' :: 'u' :: 'l' :: 'l' :: rest => some (.null, rest)
      | c :: rest =>
          if c = '-' ∨ c.isDigit then
            (parseNum (c :: rest)).map (fun (l, r) => (.num l, r))
          else none
      | [] => none

/-- One-or-more comma-separated array elements, then `]`. -/
def parseElems : Nat → List Char → Option (List Json × List Char)
  | 0, _ => none
  | fuel + 1, cs =>
      match parseVal fuel cs with
      | none => none
      | some (v, r) =>
          match skipWs r with
          | ',' :: r2 => (parseElems fuel r2).map (fun (es, r3) => (v :: es, r3))
          | ']' :: r2 => some ([v], r2)
          | _ => none

/-- One-or-more comma-separated object members, then the closing brace. -/
def parseMembers : Nat → List Char → Option (List (String × Json) × List Char)
  | 0, _ => none
  | fuel + 1, cs =>
      match skipWs cs with
      | '"' :: rest =>
          match parseStrBody rest with
          | none => none
          | some (k, r) =>
              match skipWs r with
              | ':' :: r2 =>
                  match parseVal fuel r2 with
                  | none => none
                  | some (v, r3) =>
                      match skipWs r3 with
                      | ',' :: r4 =>
                          (parseMembers fuel r4).map
                            (fun (ms, r5) => ((⟨k⟩, v) :: ms, r5))
                      | '\x7d' :: r4 => some ([(⟨k⟩, v)], r4)
                      | _ => none
              | _ => none
      | _ => none

end

/-- Model of `json.loads` on a whole string: parse one value, allow only
whitespace after it, otherwise fail (Python raises "Extra data"). -/
def jsonLoadsL (cs : List Char) : Option Json :=
  match parseVal (cs.length + 1) cs with
  | some (j, rest) => if (skipWs rest).isEmpty then some j else none
  | none => none

/-- `json.loads` on a `String`. -/
def jsonLoads (s : String) : Option Json := jsonLoadsL s.data

/-- Last value bound to key `k` among the parsed members (Python dict
construction keeps the last duplicate). -/
def jgetLast (kvs : List (String × Json)) (k : String) : Option Json :=
  match kvs with
  | [] => none
  | (k', v) :: rest =>
      match jgetLast rest k with
      | some v' => some v'
      | none => if k' = k then some v else none

/-- Python `dict.get(k, d)` on a decoded JSON object (non-objects cannot reach
the call site in `parse`, they yield the default). -/
def jsonGetD (j : Json) (k : String) (d : Json) : Json :=
  match j with
  | .obj kvs => (jgetLast kvs k).getD d
  | _ => d

/-- Does the mantissa of a JSON number literal contain a nonzero digit? -/
def numNonzero (lit : List Char) : Bool :=
  (lit.takeWhile (fun c => c ≠ 'e' ∧ c ≠ 'E')).any (fun c => c.isDigit ∧ c ≠ '0')

/-- Python truthiness of a decoded JSON value (`if not parsed_output`). -/
def pythonTruthy : Json → Bool
  | .null => false
  | .bool b => b
  | .num lit => numNonzero lit
  | .str s => !s.isEmpty
  | .arr xs => !xs.isEmpty
  | .obj kvs => !kvs.isEmpty

/-! ### `InputEnhancerParser.parse` (src/utils/parser.py, lines 48-76) -/

/-- Index of the first `{` in the text, if any. -/
def firstBrace : List Char → Option Nat
  | [] => none
  | c :: cs => if c = '\x7b' then some 0 else (firstBrace cs).map (· + 1)

/-- Index of the last `}` in the text, if any. -/
def lastClose : List Char → Option Nat
  | [] => none
  | c :: cs =>
      match lastClose cs with
      | some k => some (k + 1)
      | none => if c = '\x7d' then some 0 else none

/-- The match of `re.search(r"\{[\s\S]*\}", content)`: the greedy span from
the first `{` to the last `}` of the whole text (present when the first `{`
lies strictly before the last `}`). -/
def extractBrace (cs : List Char) : Option (List Char) :=
  match firstBrace cs, lastClose cs with
  | some i, some j => if i < j then some ((cs.drop i).take (j - i + 1)) else none
  | _, _ => none

/-- Tier 1 of `parse`: regex match then `json.loads`, `None` on any failure. -/
def tier1 (content : String) : Option Json :=
  (extractBrace content.data).bind jsonLoadsL

/-- The three bullet markers recognised by the fallback tier. -/
def bulletChars : List Char := ['•', '-', '*']

/-- The strip set of `line.strip("•-* ")`. -/
def bulletStripSet : List Char := ['•', '-', '*', ' ']

/-- Tier 2 of `parse`: bullet-marked lines, as the source computes them —
`line.strip()`, skip blanks, keep lines whose first character is a bullet
marker, each contributing `line.strip("•-* ").strip()`. -/
def bulletQueries (content : String) : List String :=
  (splitlines content.data).filterMap (fun l =>
    let line := stripWs l
    match line with
    | [] => none
    | c :: _ =>
        if c ∈ bulletChars then some ⟨stripWs (stripSet bulletStripSet line)⟩
        else none)

/-- Record returned by `InputEnhancerParser.parse`.  The two field values are
whatever JSON values `dict.get` produced (lists of strings in the well-typed
case). -/
structure EnhOut where
  search_queries : Json
  business_domains : Json
  messages : List String
deriving Repr

/-- The fallback dict built by step 2 of `parse`. -/
def fallbackObj (content : String) : Json :=
  Json.obj [("search_queries", Json.arr ((bulletQueries content).map Json.str)),
            ("business_domains", Json.arr [])]

/-- `InputEnhancerParser.parse` (src/utils/parser.py, lines 48-76):
tier-1 greedy-brace JSON extraction, falling back to bullet lines whenever the
JSON attempt failed or produced a falsy value, then a uniform `.get` step. -/
def InputEnhancerParser.parse (content : String) : EnhOut :=
  let parsed_output : Json :=
    match tier1 content with
    | some j => if pythonTruthy j then j else fallbackObj content
    | none => fallbackObj content
  { search_queries := jsonGetD parsed_output "search_queries" (Json.arr [])
    business_domains := jsonGetD parsed_output "business_domains" (Json.arr [])
    messages := [content] }

/-! ### `run_cse_scraper` (src/utils/google_scraper.py, lines 56-72)

`google_search` performs only external-service interaction (building the CSE
client and issuing the HTTP request); it is modelled as a parameter
`gs : String → Except String (List SearchResult)` — `.error` stands for the
call raising.  The final write of `google_webscrap_results.json` is modelled
by the `cseWriteOk` flag (`false` = the write raises). -/

/-- One CSE result entry (`item.get` may return `None` for each field). -/
structure SearchResult where
  title : Option String
  snippet : Option String
  link : Option String
deriving Repr, DecidableEq

/-- Python dict assignment `d[k] = v`: overwrite in place, else append. -/
def dinsert {α : Type} (k : String) (v : α) : List (String × α) → List (String × α)
  | [] => [(k, v)]
  | (k', v') :: t => if k' = k then (k, v) :: t else (k', v') :: dinsert k v t

/-- Python dict lookup (keys are unique in a dict built by `dinsert`). -/
def dlookup {α : Type} (k : String) : List (String × α) → Option α
  | [] => none
  | (k', v) :: t => if k' = k then some v else dlookup k t

/-- The keys of a dict, in insertion order. -/
def dkeys {α : Type} (d : List (String × α)) : List String := d.map Prod.fst

/-- The mapping from query string to result list, per Discover. -/
abbrev LeadDict := List (String × List SearchResult)

/-- The `for q in queries` loop of `run_cse_scraper`: each query's
`google_search` call is tried, an exception is caught and recorded as `[]`. -/
def cseLoop (gs : String → Except String (List SearchResult))
    (queries : List String) : LeadDict :=
  queries.foldl
    (fun d q => dinsert q (match gs q with | .ok r => r | .error _ => []) d) []

/-- `run_cse_scraper` (src/utils/google_scraper.py, lines 56-72): the
per-query loop, then the unguarded write of the results file — a write
failure raises out of the function. -/
def run_cse_scraper (gs : String → Except String (List SearchResult))
    (cseWriteOk : Bool) (queries : List String) : Except String LeadDict :=
  let all_results := cseLoop gs queries
  if cseWriteOk then .ok all_results
  else .error "failed to write google_webscrap_results.json"

/-! ### Pipeline state (src/graphs/graph_builder_2.py, `LeadPipelineState`) -/

/-- The `TypedDict(total=False)` threaded through the graph: every key is
optional (`none` = key absent).  The `search_queries`/`business_domains`/
`messages` fields carry the values of the declared `List[str]` types. -/
structure LeadPipelineState where
  product_name : Option String := none
  description : Option String := none
  features : Option (List String) := none
  competitors : Option (List String) := none
  search_queries : Option (List String) := none
  business_domains : Option (List String) := none
  messages : Option (List String) := none
  scraped_leads : Option LeadDict := none
  value_prop : Option String := none
  customer_profile : Option String := none
  ranked_leads : Option Json := none
deriving Repr

/-- The record produced by the Enhance stage, at the `List[str]` types the
state declares.  `jsonToStrList` is the coercion of a decoded JSON value to
that declared type (exact for well-typed model outputs). -/
structure EnhancedOutput where
  search_queries : List String
  business_domains : List String
  messages : List String
deriving Repr

/-- Coerce a decoded JSON value to the `List[str]` type declared by the
state schema (string elements of an array; anything else contributes none). -/
def jsonToStrList : Json → List String
  | .arr xs => xs.filterMap (fun j => match j with | .str s => some s | _ => none)
  | _ => []

/-- `generate_queries_and_domains` (src/agents/Input_Enhancer.py, lines
46-65): invoke the LLM and parse its content.  The body has no `try`/
`except`, so an exception from `llm.invoke` propagates to the caller. -/
def generate_queries_and_domains (llmResp : Except String String) :
    Except String EnhancedOutput :=
  match llmResp with
  | .error e => .error e
  | .ok content =>
      let p := InputEnhancerParser.parse content
      .ok { search_queries := jsonToStrList p.search_queries
            business_domains := jsonToStrList p.business_domains
            messages := p.messages }

/-- `node_input_enhancer` (src/graphs/graph_builder_2.py, lines 42-57):
merge the enhancer's output keys into the state. -/
def node_input_enhancer (llmResp : Except String String)
    (st : LeadPipelineState) : Except String LeadPipelineState :=
  match generate_queries_and_domains llmResp with
  | .error e => .error e
  | .ok out =>
      .ok { st with search_queries := some out.search_queries
                    business_domains := some out.business_domains
                    messages := some out.messages }

/-- `node_google_scraper` (src/graphs/graph_builder_2.py, lines 64-80):
skip when no queries, else store the batch result under `scraped_leads`. -/
def node_google_scraper (gs : String → Except String (List SearchResult))
    (cseWriteOk : Bool) (st : LeadPipelineState) :
    Except String LeadPipelineState :=
  let queries := st.search_queries.getD []
  if queries.isEmpty then .ok st
  else
    match run_cse_scraper gs cseWriteOk queries with
    | .error e => .error e
    | .ok results => .ok { st with scraped_leads := some results }

/-- `research_companies` (src/agents/lead_finder.py, lines 28-70): empty
`scraped_leads` returns `{}` at once; the LLM call and the `json.loads` of its
content sit in a `try`/`except` returning `{}`; the subsequent write of
`leads_ranked.json` is outside the `try`, so its failure raises. -/
def research_companies (llmResp : Except String String) (rankedWriteOk : Bool)
    (st : LeadPipelineState) : Except String Json :=
  let companies := st.scraped_leads.getD []
  if companies.isEmpty then .ok (Json.obj [])
  else
    match llmResp with
    | .error _ => .ok (Json.obj [])
    | .ok content =>
        match jsonLoads content with
        | none => .ok (Json.obj [])
        | some ranked =>
            if rankedWriteOk then .ok ranked
            else .error "failed to write leads_ranked.json"

/-- Python `", ".join`. -/
def joinComma (xs : List String) : String := String.intercalate ", " xs

/-- The unconditional writes of `node_lead_finder`'s first two statements:
the synthesized `value_prop` and `customer_profile` strings. -/
def withSynth (st : LeadPipelineState) : LeadPipelineState :=
  { st with
    value_prop := some (st.product_name.getD "" ++ ": " ++ st.description.getD ""
      ++ ". Key features include " ++ joinComma (st.features.getD []) ++ ".")
    customer_profile := some ("Ideal customers include businesses in "
      ++ joinComma (st.business_domains.getD []) ++ ".") }

/-- Python `ranked or {}`: the parsed ranking when truthy, else the empty
dict. -/
def rankedOrEmpty (r : Json) : Json := if pythonTruthy r then r else Json.obj []

/-- `node_lead_finder` (src/graphs/graph_builder_2.py, lines 86-118):
`value_prop` and `customer_profile` are written unconditionally, then the
guard `if not scraped_data` skips the rest; otherwise the debug dump of
`data/google_webscrap_results.json` (unguarded, flag `debugWriteOk`) and the
ranking agent run, and `ranked or {}` is stored under `ranked_leads`. -/
def node_lead_finder (llmResp : Except String String)
    (debugWriteOk rankedWriteOk : Bool) (st : LeadPipelineState) :
    Except String LeadPipelineState :=
  let st1 := withSynth st
  let scraped_data := st1.scraped_leads.getD []
  if scraped_data.isEmpty then .ok st1
  else if !debugWriteOk then .error "failed to write google_webscrap_results.json"
  else
    match research_companies llmResp rankedWriteOk st1 with
    | .error e => .error e
    | .ok ranked =>
        .ok { st1 with ranked_leads := some (rankedOrEmpty ranked) }

/-- `main` (src/graphs/graph_builder_2.py, lines 162-176): the compiled graph
is the strict linear chain input_enhancer → google_scraper → lead_finder, each
node's exception aborting the invocation. -/
def main (llm1 : Except String String)
    (gs : String → Except String (List SearchResult)) (cseWriteOk : Bool)
    (llm2 : Except String String) (debugWriteOk rankedWriteOk : Bool)
    (st0 : LeadPipelineState) : Except String LeadPipelineState :=
  match node_input_enhancer llm1 st0 with
  | .error e => .error e
  | .ok s1 =>
      match node_google_scraper gs cseWriteOk s1 with
      | .error e => .error e
      | .ok s2 => node_lead_finder llm2 debugWriteOk rankedWriteOk s2

/-! ### The API layer (src/api/api_main.py) -/

/-- `LeadResearchInput` (src/api/api_main.py, lines 56-62), with the pydantic
defaults. -/
structure LeadResearchInput where
  product_name : String
  description : String
  features : List String := []
  competitors : List String := []
  value_prop : String := "AI automation for enterprises"
  customer_profile : String := "Medium to large enterprises seeking automation"
deriving Repr

/-- The pipeline's initial state: `input_data.dict()` of the request model. -/
def initStateOfInput (inp : LeadResearchInput) : LeadPipelineState :=
  { product_name := some inp.product_name
    description := some inp.description
    features := some inp.features
    competitors := some inp.competitors
    value_prop := some inp.value_prop
    customer_profile := some inp.customer_profile }

/-- The row built by `LeadPipelineParser.parse` (src/utils/parser.py, lines
82-98) from `{"result": result}`. -/
structure EvalRow where
  product_name : Option String
  description : Option String
  features : List String
  competitors : List String
  search_queries : List String
  business_domains : List String
  scraped_leads : LeadDict
  ranked_leads : Json
deriving Repr

/-- `LeadPipelineParser.parse` (src/utils/parser.py, lines 82-98). -/
def LeadPipelineParser.parse (result : LeadPipelineState) : EvalRow :=
  { product_name := result.product_name
    description := result.description
    features := result.features.getD []
    competitors := result.competitors.getD []
    search_queries := result.search_queries.getD []
    business_domains := result.business_domains.getD []
    scraped_leads := result.scraped_leads.getD []
    ranked_leads := result.ranked_leads.getD (Json.obj []) }

/-- `LeadPipelineParser.save` (src/utils/parser.py, lines 100-113): the
Supabase insert (`insertRes` models its outcome) is wrapped in `try`/`except`
returning `None`, so a failure never escapes. -/
def LeadPipelineParser.save (insertRes : Except String Unit) (_row : EvalRow) :
    Option Unit :=
  match insertRes with
  | .ok a => some a
  | .error _ => none

/-- The body of the `/run-lead-pipeline` handler (src/api/api_main.py, lines
76-90): run the graph, best-effort save, answer success; any exception is
mapped to an HTTP 500 with the exception's message. -/
def run_lead_pipeline (inp : LeadResearchInput)
    (llm1 : Except String String)
    (gs : String → Except String (List SearchResult)) (cseWriteOk : Bool)
    (llm2 : Except String String) (debugWriteOk rankedWriteOk : Bool)
    (insertRes : Except String Unit) :
    Except (Nat × String) (String × LeadPipelineState) :=
  match main llm1 gs cseWriteOk llm2 debugWriteOk rankedWriteOk
      (initStateOfInput inp) with
  | .ok result =>
      let row := LeadPipelineParser.parse result
      let _ := LeadPipelineParser.save insertRes row
      .ok ("success", result)
  | .error e => .error (500, e)

/-! ### `clean_bing_url` (src/utils/playwright_scrap.py, lines 26-37)

The stdlib pieces (`urlparse`/`parse_qs` query extraction, `base64.b64decode`,
`bytes.decode("utf-8", errors="ignore")`) are modelled concretely below at the
level the function uses them: query = text between the first `?` (before any
`#`) and the fragment; `parse_qs` splits on `&`, keeps `name=value` chunks
with a nonempty raw value, and `unquote_plus`-decodes both sides;
`b64decode` discards non-alphabet characters and decodes standard padded
base64 (anything else raises, i.e. `none`); the UTF-8 decoder skips invalid
bytes as `errors="ignore"` does. -/

/-- The `query` component of `urlparse`: after the first `?`, with the
fragment (everything from the first `#`) removed first. -/
def urlQuery (url : List Char) : List Char :=
  ((url.takeWhile (· ≠ '#')).dropWhile (· ≠ '?')).drop 1

/-- Split on a separator character, keeping empty chunks. -/
def splitOn (sep : Char) : List Char → List (List Char)
  | [] => [[]]
  | c :: cs =>
      if c = sep then [] :: splitOn sep cs
      else
        match splitOn sep cs with
        | chunk :: rest => (c :: chunk) :: rest
        | [] => [[c]]

/-- ASCII-level model of `urllib.parse.unquote_plus`: `+` becomes a space and
`%hh` becomes the character with that code. -/
def unquotePlus : List Char → List Char
  | [] => []
  | '+' :: r => ' ' :: unquotePlus r
  | '%' :: h1 :: h2 :: r =>
      match hexVal h1, hexVal h2 with
      | some v1, some v2 => Char.ofNat (v1 * 16 + v2) :: unquotePlus r
      | _, _ => '%' :: unquotePlus (h1 :: h2 :: r)
  | c :: r => c :: unquotePlus r

/-- `parse_qs(query).get(key, [None])[0]`: the first `name=value` chunk (split
on `&`) whose raw value is nonempty and whose decoded name is `key`, giving
its decoded value. -/
def firstParam (key : List Char) (query : List Char) : Option (List Char) :=
  ((splitOn '&' query).filterMap (fun chunk =>
    let name := chunk.takeWhile (· ≠ '=')
    match chunk.dropWhile (· ≠ '=') with
    | [] => none
    | _ :: value =>
        if value.isEmpty then none
        else if unquotePlus name = key then some (unquotePlus value) else none)).head?

/-- Value of a base64-alphabet character. -/
def b64Val (c : Char) : Option Nat :=
  if 'A' ≤ c ∧ c ≤ 'Z' then some (c.toNat - 'A'.toNat)
  else if 'a' ≤ c ∧ c ≤ 'z' then some (c.toNat - 'a'.toNat + 26)
  else if '0' ≤ c ∧ c ≤ '9' then some (c.toNat - '0'.toNat + 52)
  else if c = '+' then some 62
  else if c = '/' then some 63
  else none

/-- Decode base64 quads with standard trailing padding; a leftover or
misplaced `=` is a decoding error. -/
def b64Quads : List Char → Option (List Nat)
  | [] => some []
  | c1 :: c2 :: c3 :: c4 :: rest =>
      match b64Val c1, b64Val c2 with
      | some v1, some v2 =>
          if c3 = '=' then
            if c4 = '=' ∧ rest.isEmpty then some [v1 * 4 + v2 / 16] else none
          else
            match b64Val c3 with
            | some v3 =>
                if c4 = '=' then
                  if rest.isEmpty then
                    some [v1 * 4 + v2 / 16, (v2 % 16) * 16 + v3 / 4]
                  else none
                else
                  match b64Val c4 with
                  | some v4 =>
                      (b64Quads rest).map (fun bs =>
                        (v1 * 4 + v2 / 16) :: ((v2 % 16) * 16 + v3 / 4)
                          :: ((v3 % 4) * 64 + v4) :: bs)
                  | none => none
            | none => none
      | _, _ => none
  | _ => none

/-- Model of `base64.b64decode` (non-strict): discard characters outside the
alphabet and `=`, then decode; `none` models a raised `binascii.Error`. -/
def b64decode (cs : List Char) : Option (List Nat) :=
  b64Quads (cs.filter (fun c => (b64Val c).isSome || c = '='))

/-- Is `b` a UTF-8 continuation byte? -/
def isCont (b : Nat) : Bool := 0x80 ≤ b ∧ b ≤ 0xbf

/-- Model of `bytes.decode("utf-8", errors="ignore")`: decode valid UTF-8
sequences, skipping bytes that do not start one. -/
def utf8DecodeIgnore (fuel : Nat) (bs : List Nat) : List Char :=
  match fuel, bs with
  | 0, _ => []
  | _, [] => []
  | fuel + 1, b :: rest =>
      if b < 0x80 then Char.ofNat b :: utf8DecodeIgnore fuel rest
      else if 0xc2 ≤ b ∧ b ≤ 0xdf then
        match rest with
        | b2 :: r2 =>
            if isCont b2 then
              Char.ofNat ((b - 0xc0) * 64 + (b2 - 0x80)) :: utf8DecodeIgnore fuel r2
            else utf8DecodeIgnore fuel rest
        | [] => []
      else if 0xe0 ≤ b ∧ b ≤ 0xef then
        match rest with
        | b2 :: b3 :: r3 =>
            let b2ok :=
              if b = 0xe0 then 0xa0 ≤ b2 ∧ b2 ≤ 0xbf
              else if b = 0xed then 0x80 ≤ b2 ∧ b2 ≤ 0x9f
              else isCont b2
            if b2ok ∧ isCont b3 then
              Char.ofNat ((b - 0xe0) * 4096 + (b2 - 0x80) * 64 + (b3 - 0x80))
                :: utf8DecodeIgnore fuel r3
            else utf8DecodeIgnore fuel rest
        | _ => []
      else if 0xf0 ≤ b ∧ b ≤ 0xf4 then
        match rest with
        | b2 :: b3 :: b4 :: r4 =>
            let b2ok :=
              if b = 0xf0 then 0x90 ≤ b2 ∧ b2 ≤ 0xbf
              else if b = 0xf4 then 0x80 ≤ b2 ∧ b2 ≤ 0x8f
              else isCont b2
            if b2ok ∧ isCont b3 ∧ isCont b4 then
              Char.ofNat ((b - 0xf0) * 262144 + (b2 - 0x80) * 4096
                  + (b3 - 0x80) * 64 + (b4 - 0x80))
                :: utf8DecodeIgnore fuel r4
            else utf8DecodeIgnore fuel rest
        | _ => []
      else utf8DecodeIgnore fuel rest

/-- Decode a byte list as UTF-8 with `errors="ignore"`. -/
def utf8Decode (bs : List Nat) : List Char := utf8DecodeIgnore (bs.length + 1) bs

/-- The decoded destination of the `u` parameter, when every step succeeds. -/
def uDecoded (url : String) : Option (List Char) :=
  (firstParam ['u'] (urlQuery url.data)).bind (fun enc =>
    (b64decode enc).map utf8Decode)

/-- `clean_bing_url` (src/utils/playwright_scrap.py, lines 26-37): extract
the first `u` query parameter, base64-decode it, and substitute the decoded
text when it starts with `"http"`; any failure (no parameter, decode error)
keeps the original URL — the whole body sits in a `try`/`except` returning
`url`. -/
def clean_bing_url (url : String) : String :=
  match firstParam ['u'] (urlQuery url.data) with
  | none => url
  | some enc =>
      match b64decode enc with
      | none => url
      | some bytes =>
          let decoded := utf8Decode bytes
          if ['h', 't', 't', 'p'].isPrefixOf decoded then ⟨decoded⟩ else url

/-- A well-formed absolute URL in the sense of the specification: a nonempty
scheme of URL-scheme characters, then `://`, then a nonempty remainder.
(Modelled from the spec side, for comparison with the code's check.) -/
def specIsAbsoluteUrl (s : String) : Bool :=
  let cs := s.data
  let scheme := cs.takeWhile (· ≠ ':')
  (!scheme.isEmpty)
    && scheme.all (fun c => c.isAlpha || c.isDigit || c = '+' || c = '-' || c = '.')
    && match cs.dropWhile (· ≠ ':') with
       | ':' :: '/' :: '/' :: host => !host.isEmpty
       | _ => false

/-! ### Lemmas about the greedy brace span -/

theorem firstBrace_append (pre rest : List Char) (h : '\x7b' ∉ pre) :
    firstBrace (pre ++ rest) = (firstBrace rest).map (· + pre.length) := by
  induction pre with
  | nil =>
      cases hfb : firstBrace rest <;> simp [hfb]
  | cons c cs ih =>
      have hc : ¬ c = '\x7b' := fun hcc => h (by simp [hcc])
      have hcs : '\x7b' ∉ cs := fun hm => h (List.mem_cons_of_mem _ hm)
      rw [List.cons_append]
      show (if c = '\x7b' then some 0 else (firstBrace (cs ++ rest)).map (· + 1))
        = (firstBrace rest).map (· + (c :: cs).length)
      rw [if_neg hc, ih hcs]
      cases firstBrace rest with
      | none => simp
      | some a => simp; omega

theorem firstBrace_cons_open (cs : List Char) : firstBrace ('\x7b' :: cs) = some 0 := by
  simp [firstBrace]

theorem lastClose_eq_none (post : List Char) (h : '\x7d' ∉ post) :
    lastClose post = none := by
  induction post with
  | nil => rfl
  | cons c cs ih =>
      have hc : ¬ c = '\x7d' := fun hcc => h (by simp [hcc])
      have hcs : '\x7d' ∉ cs := fun hm => h (List.mem_cons_of_mem _ hm)
      show (match lastClose cs with
            | some k => some (k + 1)
            | none => if c = '\x7d' then some 0 else none) = none
      rw [ih hcs, if_neg hc]

theorem lastClose_append_none (xs post : List Char) (hpost : lastClose post = none) :
    lastClose (xs ++ post) = lastClose xs := by
  induction xs with
  | nil => simpa using hpost
  | cons c cs ih =>
      show (match lastClose (cs ++ post) with
            | some k => some (k + 1)
            | none => if c = '\x7d' then some 0 else none)
        = (match lastClose cs with
            | some k => some (k + 1)
            | none => if c = '\x7d' then some 0 else none)
      rw [ih]

theorem lastClose_snoc_close (ys : List Char) :
    lastClose (ys ++ ['\x7d']) = some ys.length := by
  induction ys with
  | nil => rfl
  | cons c cs ih =>
      show (match lastClose (cs ++ ['\x7d']) with
            | some k => some (k + 1)
            | none => if c = '\x7d' then some 0 else none)
        = some (c :: cs).length
      rw [ih]
      simp

/-- The greedy regex span of a text made of brace-free prose around one
brace-delimited block is exactly that block. -/
theorem extractBrace_concat (pre mid post : List Char)
    (hpre : '\x7b' ∉ pre) (hpost : '\x7d' ∉ post) :
    extractBrace (pre ++ ('\x7b' :: mid ++ ['\x7d']) ++ post)
      = some ('\x7b' :: mid ++ ['\x7d']) := by
  have h1 : firstBrace (pre ++ ('\x7b' :: mid ++ ['\x7d']) ++ post)
      = some pre.length := by
    rw [List.append_assoc, firstBrace_append _ _ hpre]
    have : firstBrace (('\x7b' :: mid ++ ['\x7d']) ++ post) = some 0 := by
      rw [List.cons_append]; exact firstBrace_cons_open _
    rw [this]
    simp
  have h2 : lastClose (pre ++ ('\x7b' :: mid ++ ['\x7d']) ++ post)
      = some (pre.length + mid.length + 1) := by
    rw [lastClose_append_none _ _ (lastClose_eq_none _ hpost)]
    have hre : pre ++ ('\x7b' :: mid ++ ['\x7d'])
        = (pre ++ '\x7b' :: mid) ++ ['\x7d'] := by
      simp
    rw [hre, lastClose_snoc_close]
    congr 1
    simp only [List.length_append, List.length_cons]
    omega
  have hlt : pre.length < pre.length + mid.length + 1 := by omega
  simp only [extractBrace, h1, h2]
  rw [if_pos hlt]
  have hdrop : (pre ++ ('\x7b' :: mid ++ ['\x7d']) ++ post).drop pre.length
      = ('\x7b' :: mid ++ ['\x7d']) ++ post := by
    rw [List.append_assoc]
    exact List.drop_left _ _
  have hlen : pre.length + mid.length + 1 - pre.length + 1
      = ('\x7b' :: mid ++ ['\x7d']).length := by
    simp; omega
  rw [hdrop, hlen]
  exact congrArg some (List.take_left _ _)

/-! ### Claim C1 -/

/-- C1 — counterexample.  The text
`{"search_queries": ["a"], "business_domains": []} }` contains (as a prefix)
a well-formed JSON object whose `search_queries` is `["a"]`, yet `parse`
returns empty `search_queries`: the source regex `\{[\s\S]*\}` matches
greedily to the *last* `}` and the single `json.loads` attempt on that span
fails, so the bullet fallback (which finds nothing) runs instead.  This
refutes the claim that the first balanced JSON object substring is extracted
regardless of surrounding braces. -/
theorem C1_counterexample :
    jsonLoads "\x7b\"search_queries\": [\"a\"], \"business_domains\": []\x7d"
      = some (Json.obj [("search_queries", Json.arr [Json.str "a"]),
                        ("business_domains", Json.arr [])])
    ∧ "\x7b\"search_queries\": [\"a\"], \"business_domains\": []\x7d \x7d"
      = "\x7b\"search_queries\": [\"a\"], \"business_domains\": []\x7d" ++ " \x7d"
    ∧ (InputEnhancerParser.parse
        "\x7b\"search_queries\": [\"a\"], \"business_domains\": []\x7d \x7d").search_queries
      = Json.arr []
    ∧ Json.arr [] ≠ Json.arr [Json.str "a"] := by
  refine ⟨rfl, rfl, rfl, ?_⟩
  simp

/-- C1 — amended: `parse` extracts the fields of the *greedy* brace span
(first `{` of the text to its last `}`); when brace-free prose surrounds a
single truthy JSON object, that object's fields are extracted strictly and
the prose is ignored. -/
theorem C1_amended (pre mid post : List Char) (j : Json)
    (hpre : '\x7b' ∉ pre) (hpost : '\x7d' ∉ post)
    (hjson : jsonLoadsL ('\x7b' :: mid ++ ['\x7d']) = some j)
    (htruthy : pythonTruthy j = true) :
    InputEnhancerParser.parse ⟨pre ++ ('\x7b' :: mid ++ ['\x7d']) ++ post⟩
      = { search_queries := jsonGetD j "search_queries" (Json.arr [])
          business_domains := jsonGetD j "business_domains" (Json.arr [])
          messages := [⟨pre ++ ('\x7b' :: mid ++ ['\x7d']) ++ post⟩] } := by
  have hx : tier1 ⟨pre ++ ('\x7b' :: mid ++ ['\x7d']) ++ post⟩ = some j := by
    show (extractBrace (pre ++ ('\x7b' :: mid ++ ['\x7d']) ++ post)).bind jsonLoadsL
      = some j
    rw [extractBrace_concat pre mid post hpre hpost]
    simpa using hjson
  unfold InputEnhancerParser.parse
  rw [hx]
  simp [htruthy]

/-- C1 — witness for the amended theorem at concrete prose around a concrete
object. -/
theorem C1_witness :
    InputEnhancerParser.parse
        ⟨"Here: ".data
          ++ ('\x7b' :: "\"search_queries\": [\"a\"], \"business_domains\": [\"d\"]".data
              ++ ['\x7d'])
          ++ " done".data⟩
      = { search_queries := Json.arr [Json.str "a"]
          business_domains := Json.arr [Json.str "d"]
          messages :=
            [⟨"Here: ".data
              ++ ('\x7b' :: "\"search_queries\": [\"a\"], \"business_domains\": [\"d\"]".data
                  ++ ['\x7d'])
              ++ " done".data⟩] } :=
  C1_amended "Here: ".data
    "\"search_queries\": [\"a\"], \"business_domains\": [\"d\"]".data
    " done".data
    (Json.obj [("search_queries", Json.arr [Json.str "a"]),
               ("business_domains", Json.arr [Json.str "d"])])
    (by decide) (by decide) rfl rfl

/-! ### Claim C5 -/

/-- C5 — `parse` is total (it is a function in this embedding, mirroring the
source's catch-all around `json.loads`); for *every* raw text, whichever
tier succeeds or neither, `messages` carries exactly the full raw text; and
when the JSON tier misses (no span, unparseable span, or falsy value) and no
bullet line exists, both field sequences are empty. -/
theorem C5_parse_total_defaults (content : String) :
    (InputEnhancerParser.parse content).messages = [content]
    ∧ ((tier1 content).all (fun j => !pythonTruthy j) = true →
        bulletQueries content = [] →
        (InputEnhancerParser.parse content).search_queries = Json.arr []
        ∧ (InputEnhancerParser.parse content).business_domains = Json.arr []) := by
  refine ⟨rfl, fun hmiss hbul => ⟨?_, ?_⟩⟩ <;>
  · unfold InputEnhancerParser.parse
    cases htier : tier1 content with
    | none => simp [fallbackObj, hbul, jsonGetD, jgetLast]
    | some j =>
        have : pythonTruthy j = false := by
          rw [htier] at hmiss
          simpa using hmiss
        simp [this, fallbackObj, hbul, jsonGetD, jgetLast]

/-- C5 — witness: the inner implication discharged on raw text with neither
JSON nor bullets, and the unconditional `messages` clause exhibited on a
tier-1-success text as well. -/
theorem C5_witness :
    ((InputEnhancerParser.parse "no structure at all").messages
        = ["no structure at all"]
      ∧ (InputEnhancerParser.parse "no structure at all").search_queries = Json.arr []
      ∧ (InputEnhancerParser.parse "no structure at all").business_domains
          = Json.arr [])
    ∧ (InputEnhancerParser.parse "\x7b\"search_queries\": [\"a\"]\x7d").messages
        = ["\x7b\"search_queries\": [\"a\"]\x7d"] :=
  ⟨⟨(C5_parse_total_defaults "no structure at all").1,
    (C5_parse_total_defaults "no structure at all").2 (by decide) (by decide)⟩,
   (C5_parse_total_defaults "\x7b\"search_queries\": [\"a\"]\x7d").1⟩

/-! ### Claim C9 -/

/-- The bullet-marked lines of the text: each line whitespace-stripped, kept
when its first character is `•`, `-` or `*`. -/
def bulletLines (content : String) : List (List Char) :=
  ((splitlines content.data).map stripWs).filter (fun t =>
    match t with
    | c :: _ => decide (c ∈ bulletChars)
    | [] => false)

theorem bulletQueries_eq_map (content : String) :
    bulletQueries content
      = (bulletLines content).map (fun l => (⟨stripWs (stripSet bulletStripSet l)⟩ : String)) := by
  unfold bulletQueries bulletLines
  induction splitlines content.data with
  | nil => rfl
  | cons l ls ih =>
      cases hl : stripWs l with
      | nil => simpa [hl] using ih
      | cons c cs =>
          by_cases hc : c ∈ bulletChars
          · simpa [hl, hc] using ih
          · simpa [hl, hc] using ih

/-- C9 — counterexample.  `"- foo-"` has no JSON object (tier 1 misses), and
its single bullet line yields the query `"foo"`: the source strips the
marker characters `•-*` and spaces from *both* ends
(`line.strip("•-* ").strip()`), so the trailing `-` is removed, not only the
leading marker — refuting "the remainder of each line otherwise
unmodified" (which would give `"foo-"`). -/
theorem C9_counterexample :
    tier1 "- foo-" = none
    ∧ (InputEnhancerParser.parse "- foo-").search_queries
        = Json.arr [Json.str "foo"]
    ∧ Json.arr [Json.str "foo"] ≠ Json.arr [Json.str "foo-"] := by
  refine ⟨rfl, rfl, ?_⟩
  simp

/-- C9 — amended: when the JSON tier misses, `parse` returns one query per
bullet-marked line, in order of appearance, each obtained by stripping the
marker characters and spaces from both ends of the line (then a final
whitespace strip); `business_domains` is empty. -/
theorem C9_amended (content : String) (h : tier1 content = none) :
    (InputEnhancerParser.parse content).search_queries
      = Json.arr ((bulletLines content).map
          (fun l => Json.str ⟨stripWs (stripSet bulletStripSet l)⟩))
    ∧ (InputEnhancerParser.parse content).business_domains = Json.arr [] := by
  constructor <;>
  · unfold InputEnhancerParser.parse
    rw [h]
    simp [fallbackObj, jsonGetD, jgetLast, bulletQueries_eq_map, List.map_map,
      Function.comp]

/-- C9 — witness: three lines, two bullet-marked, order preserved, both-end
stripping visible on each. -/
theorem C9_witness :
    (InputEnhancerParser.parse "intro\n• alpha beta \n* gamma*\nplain").search_queries
      = Json.arr [Json.str "alpha beta", Json.str "gamma"]
    ∧ (InputEnhancerParser.parse "intro\n• alpha beta \n* gamma*\nplain").business_domains
      = Json.arr [] :=
  C9_amended "intro\n• alpha beta \n* gamma*\nplain" rfl

/-! ### Claim C10 -/

/-- C10 — when the greedy brace span parses successfully but to a falsy value
(the empty JSON object), the successfully parsed JSON is discarded and the
bullet fallback still runs, collecting bullet-marked lines into
`search_queries`. -/
theorem C10_falsy_json_falls_through (content : String) (s : List Char) (j : Json)
    (hx : extractBrace content.data = some s)
    (hp : jsonLoadsL s = some j)
    (hf : pythonTruthy j = false) :
    InputEnhancerParser.parse content
      = { search_queries := Json.arr ((bulletQueries content).map Json.str)
          business_domains := Json.arr []
          messages := [content] } := by
  have hx' : tier1 content = some j := by
    show (extractBrace content.data).bind jsonLoadsL = some j
    rw [hx]
    simpa using hp
  unfold InputEnhancerParser.parse
  rw [hx']
  simp [hf, fallbackObj, jsonGetD, jgetLast]

/-- C10 — witness: the text `{} \n- alpha` has the well-formed (falsy) JSON
span `{}` yet the bullet line below it is still collected. -/
theorem C10_witness :
    InputEnhancerParser.parse "\x7b\x7d \n- alpha"
      = { search_queries := Json.arr [Json.str "alpha"]
          business_domains := Json.arr []
          messages := ["\x7b\x7d \n- alpha"] } :=
  C10_falsy_json_falls_through "\x7b\x7d \n- alpha" ['\x7b', '\x7d'] (Json.obj [])
    rfl rfl rfl

/-! ### Dict lemmas for the Discover batch (claim C6) -/

/-- What the loop body records for query `q`: the search results, or `[]`
when the call raised. -/
def cseResult (gs : String → Except String (List SearchResult)) (q : String) :
    List SearchResult :=
  match gs q with
  | .ok r => r
  | .error _ => []

/-- The loop of `run_cse_scraper` from an arbitrary starting dict. -/
def foldIns (gs : String → Except String (List SearchResult))
    (qs : List String) (d : LeadDict) : LeadDict :=
  qs.foldl (fun d q => dinsert q (cseResult gs q) d) d

theorem cseLoop_eq_foldIns (gs : String → Except String (List SearchResult))
    (qs : List String) : cseLoop gs qs = foldIns gs qs [] := rfl

theorem foldIns_cons (gs : String → Except String (List SearchResult))
    (q : String) (qs : List String) (d : LeadDict) :
    foldIns gs (q :: qs) d = foldIns gs qs (dinsert q (cseResult gs q) d) := rfl

theorem dlookup_dinsert_self {α : Type} (k : String) (v : α)
    (d : List (String × α)) : dlookup k (dinsert k v d) = some v := by
  induction d with
  | nil => simp [dinsert, dlookup]
  | cons p t ih =>
      obtain ⟨k', v'⟩ := p
      by_cases h : k' = k
      · simp [dinsert, h, dlookup]
      · simp [dinsert, h, dlookup, ih]

theorem dlookup_dinsert_ne {α : Type} (k k' : String) (v : α)
    (d : List (String × α)) (h : k' ≠ k) :
    dlookup k' (dinsert k v d) = dlookup k' d := by
  induction d with
  | nil => simp [dinsert, dlookup, Ne.symm h]
  | cons p t ih =>
      obtain ⟨k'', v''⟩ := p
      by_cases hk : k'' = k
      · subst hk
        simp [dinsert, dlookup, Ne.symm h]
      · simp [dinsert, hk, dlookup, ih]

theorem mem_dkeys_dinsert {α : Type} (k k' : String) (v : α)
    (d : List (String × α)) :
    k' ∈ dkeys (dinsert k v d) ↔ k' = k ∨ k' ∈ dkeys d := by
  induction d with
  | nil => simp [dinsert, dkeys]
  | cons p t ih =>
      obtain ⟨k'', v''⟩ := p
      by_cases hk : k'' = k
      · subst hk
        simp [dinsert, dkeys]
      · simp only [dinsert, if_neg hk, dkeys, List.map_cons, List.mem_cons] at *
        rw [ih]
        tauto

theorem nodup_dkeys_dinsert {α : Type} (k : String) (v : α)
    (d : List (String × α)) (h : (dkeys d).Nodup) :
    (dkeys (dinsert k v d)).Nodup := by
  induction d with
  | nil => simp [dinsert, dkeys]
  | cons p t ih =>
      obtain ⟨k'', v''⟩ := p
      simp only [dkeys, List.map_cons, List.nodup_cons] at h
      by_cases hk : k'' = k
      · subst hk
        simpa [dinsert, dkeys] using h
      · have h1 : k'' ∉ dkeys (dinsert k v t) := by
          rw [mem_dkeys_dinsert]
          push_neg
          exact ⟨hk, h.1⟩
        have h2 : (dkeys (dinsert k v t)).Nodup := ih h.2
        have hins : dinsert k v ((k'', v'') :: t) = (k'', v'') :: dinsert k v t := by
          simp [dinsert, hk]
        have hkeys : dkeys ((k'', v'') :: dinsert k v t)
            = k'' :: dkeys (dinsert k v t) := rfl
        rw [hins, hkeys]
        exact List.nodup_cons.mpr ⟨h1, h2⟩

theorem foldIns_lookup_of_not_mem (gs : String → Except String (List SearchResult))
    (q : String) (qs : List String) (d : LeadDict) (hq : q ∉ qs) :
    dlookup q (foldIns gs qs d) = dlookup q d := by
  induction qs generalizing d with
  | nil => rfl
  | cons q' qs' ih =>
      have hne : q ≠ q' := fun hh => hq (by simp [hh])
      have hnm : q ∉ qs' := fun hm => hq (List.mem_cons_of_mem _ hm)
      rw [foldIns_cons, ih _ hnm, dlookup_dinsert_ne _ _ _ _ hne]

theorem foldIns_lookup_of_mem (gs : String → Except String (List SearchResult))
    (q : String) (qs : List String) (d : LeadDict) (hq : q ∈ qs) :
    dlookup q (foldIns gs qs d) = some (cseResult gs q) := by
  induction qs generalizing d with
  | nil => cases hq
  | cons q' qs' ih =>
      by_cases hmem : q ∈ qs'
      · rw [foldIns_cons]
        exact ih _ hmem
      · have hq' : q = q' := by
          rcases List.mem_cons.mp hq with h | h
          · exact h
          · exact absurd h hmem
        subst hq'
        rw [foldIns_cons, foldIns_lookup_of_not_mem _ _ _ _ hmem,
          dlookup_dinsert_self]

theorem foldIns_mem_keys (gs : String → Except String (List SearchResult))
    (k : String) (qs : List String) (d : LeadDict) :
    k ∈ dkeys (foldIns gs qs d) ↔ k ∈ dkeys d ∨ k ∈ qs := by
  induction qs generalizing d with
  | nil => simp [foldIns]
  | cons q' qs' ih =>
      rw [foldIns_cons, ih, mem_dkeys_dinsert]
      simp only [List.mem_cons]
      tauto

theorem foldIns_nodup (gs : String → Except String (List SearchResult))
    (qs : List String) (d : LeadDict) (h : (dkeys d).Nodup) :
    (dkeys (foldIns gs qs d)).Nodup := by
  induction qs generalizing d with
  | nil => exact h
  | cons q' qs' ih =>
      rw [foldIns_cons]
      exact ih _ (nodup_dkeys_dinsert _ _ _ h)

/-! ### Claim C6 -/

/-- C6 — per-query failure isolation of the Discover batch: with the results
file write succeeding, `run_cse_scraper` returns normally; its dict has
no duplicate keys; its key set is exactly the set of input queries; and each
input query is mapped to its own `google_search` outcome — the results on
success, `[]` when that query's call raised — independent of the other
queries' outcomes. -/
theorem C6_batch_isolation (gs : String → Except String (List SearchResult))
    (queries : List String) (q : String) (hq : q ∈ queries) :
    run_cse_scraper gs true queries = .ok (cseLoop gs queries)
    ∧ (dkeys (cseLoop gs queries)).Nodup
    ∧ (∀ k, k ∈ dkeys (cseLoop gs queries) ↔ k ∈ queries)
    ∧ dlookup q (cseLoop gs queries) = some (cseResult gs q) := by
  refine ⟨rfl, ?_, ?_, ?_⟩
  · rw [cseLoop_eq_foldIns]
    exact foldIns_nodup _ _ _ (by simp [dkeys])
  · intro k
    rw [cseLoop_eq_foldIns, foldIns_mem_keys]
    simp [dkeys]
  · rw [cseLoop_eq_foldIns]
    exact foldIns_lookup_of_mem _ _ _ _ hq

/-- A batch backend for the C6 witness: the query `"bad"` raises, the rest
succeed. -/
def gsC6 : String → Except String (List SearchResult) :=
  fun q =>
    if q = "bad" then .error "quota exceeded"
    else .ok [{ title := some "t", snippet := some "s", link := some "l" }]

/-- C6 — witness: in the batch `["good", "bad"]` where `"bad"` raises, the
failed query maps to `[]`, and `"good"` keeps its own results. -/
theorem C6_witness :
    (run_cse_scraper gsC6 true ["good", "bad"] = .ok (cseLoop gsC6 ["good", "bad"])
      ∧ (dkeys (cseLoop gsC6 ["good", "bad"])).Nodup
      ∧ (∀ k, k ∈ dkeys (cseLoop gsC6 ["good", "bad"]) ↔ k ∈ ["good", "bad"])
      ∧ dlookup "bad" (cseLoop gsC6 ["good", "bad"]) = some (cseResult gsC6 "bad"))
    ∧ cseResult gsC6 "bad" = []
    ∧ dlookup "good" (cseLoop gsC6 ["good", "bad"])
        = some [{ title := some "t", snippet := some "s", link := some "l" }] :=
  ⟨C6_batch_isolation gsC6 ["good", "bad"] "bad" (by simp), rfl, rfl⟩

/-! ### Pipeline stepping lemmas -/

/-- The Enhance merge: the three keys of the parser's record written into the
state. -/
def enhMerge (c1 : String) (st : LeadPipelineState) : LeadPipelineState :=
  { st with
    search_queries := some (jsonToStrList (InputEnhancerParser.parse c1).search_queries)
    business_domains := some (jsonToStrList (InputEnhancerParser.parse c1).business_domains)
    messages := some (InputEnhancerParser.parse c1).messages }

theorem node_input_enhancer_ok (c1 : String) (st : LeadPipelineState) :
    node_input_enhancer (.ok c1) st = .ok (enhMerge c1 st) := rfl

theorem isEmpty_false_of_ne_nil {α : Type} (l : List α) (h : l ≠ []) :
    l.isEmpty = false := by
  cases l with
  | nil => exact absurd rfl h
  | cons a t => rfl

theorem node_google_scraper_skip (gs : String → Except String (List SearchResult))
    (cseW : Bool) (st : LeadPipelineState) (h : st.search_queries.getD [] = []) :
    node_google_scraper gs cseW st = .ok st := by
  simp [node_google_scraper, h]

theorem node_google_scraper_nonskip (gs : String → Except String (List SearchResult))
    (st : LeadPipelineState) (hq : st.search_queries.getD [] ≠ []) :
    node_google_scraper gs true st
      = .ok { st with
          scraped_leads := some (cseLoop gs (st.search_queries.getD [])) } := by
  simp [node_google_scraper, run_cse_scraper, isEmpty_false_of_ne_nil _ hq]

theorem node_lead_finder_skip (llm2 : Except String String) (dW rW : Bool)
    (st : LeadPipelineState) (h : st.scraped_leads.getD [] = []) :
    node_lead_finder llm2 dW rW st = .ok (withSynth st) := by
  have h' : (withSynth st).scraped_leads.getD [] = [] := h
  simp only [node_lead_finder, h', List.isEmpty_nil, if_true]

/-- Does the Rank stage's guarded region fail (LLM raise, or unparseable
content)?  Exactly the two cases its `try`/`except` catches. -/
def rankFails (llm2 : Except String String) : Bool :=
  match llm2 with
  | .error _ => true
  | .ok content => (jsonLoads content).isNone

theorem node_lead_finder_rankFail (llm2 : Except String String) (rW : Bool)
    (st : LeadPipelineState) (h1 : rankFails llm2 = true)
    (h2 : st.scraped_leads.getD [] ≠ []) :
    node_lead_finder llm2 true rW st
      = .ok { withSynth st with ranked_leads := some (Json.obj []) } := by
  have h2' : ((withSynth st).scraped_leads.getD []).isEmpty = false :=
    isEmpty_false_of_ne_nil _ h2
  cases llm2 with
  | error e =>
      simp only [node_lead_finder, h2', research_companies, Bool.not_true,
        Bool.false_eq_true, if_false]
      simp [isEmpty_false_of_ne_nil _ h2, pythonTruthy, rankedOrEmpty]
  | ok content =>
      have hj : jsonLoads content = none := by
        simpa [rankFails, Option.isNone_iff_eq_none] using h1
      simp only [node_lead_finder, h2', research_companies, Bool.not_true,
        Bool.false_eq_true, if_false]
      simp [isEmpty_false_of_ne_nil _ h2, hj, pythonTruthy, rankedOrEmpty]

theorem main_eq_rank (llm1 : Except String String)
    (gs : String → Except String (List SearchResult)) (cseW : Bool)
    (llm2 : Except String String) (dW rW : Bool)
    (st0 s1 s2 : LeadPipelineState)
    (h1 : node_input_enhancer llm1 st0 = .ok s1)
    (h2 : node_google_scraper gs cseW s1 = .ok s2) :
    main llm1 gs cseW llm2 dW rW st0 = node_lead_finder llm2 dW rW s2 := by
  simp only [main, h1, h2]

theorem node_lead_finder_rankOk (content : String) (r : Json)
    (st : LeadPipelineState) (h2 : st.scraped_leads.getD [] ≠ [])
    (hj : jsonLoads content = some r) :
    node_lead_finder (.ok content) true true st
      = .ok { withSynth st with ranked_leads := some (rankedOrEmpty r) } := by
  have h2' : ((withSynth st).scraped_leads.getD []).isEmpty = false :=
    isEmpty_false_of_ne_nil _ h2
  simp only [node_lead_finder, h2', research_companies, Bool.not_true,
    Bool.false_eq_true, if_false]
  simp [isEmpty_false_of_ne_nil _ h2, hj]

/-! ### Claim C2 -/

/-- C2 — counterexample.  An exception raised by the generation service
during the Enhance stage is *not* caught inside that stage
(`generate_queries_and_domains` has no `try`/`except`): the invocation
aborts and the API handler maps the exception to an HTTP 500, instead of the
pipeline completing with the accumulated state. -/
theorem C2_counterexample :
    run_lead_pipeline { product_name := "X", description := "Y" }
        (.error "llm down") (fun _ => .error "unused") true (.ok "unused")
        true true (.ok ())
      = .error (500, "llm down") := rfl

/-- C2 — amended: only the *Rank* stage catches its generation-service and
parse exceptions (degrading to an empty ranking); given that the Enhance call
returns normally and the two unguarded file writes succeed, a Rank-stage
failure still lets the pipeline run to completion with the accumulated
state. -/
theorem C2_amended (st0 : LeadPipelineState) (c1 : String)
    (gs : String → Except String (List SearchResult))
    (llm2 : Except String String) (rW : Bool)
    (h : rankFails llm2 = true) :
    ∃ s, main (.ok c1) gs true llm2 true rW st0 = .ok s
      ∧ (s.ranked_leads = st0.ranked_leads ∨ s.ranked_leads = some (Json.obj [])) := by
  by_cases hq : (enhMerge c1 st0).search_queries.getD [] = []
  · have hmain := main_eq_rank (.ok c1) gs true llm2 true rW st0 _ _
      (node_input_enhancer_ok c1 st0) (node_google_scraper_skip _ _ _ hq)
    by_cases hs : (enhMerge c1 st0).scraped_leads.getD [] = []
    · exact ⟨withSynth (enhMerge c1 st0),
        hmain.trans (node_lead_finder_skip _ _ _ _ hs), Or.inl rfl⟩
    · exact ⟨{ withSynth (enhMerge c1 st0) with ranked_leads := some (Json.obj []) },
        hmain.trans (node_lead_finder_rankFail _ _ _ h hs), Or.inr rfl⟩
  · have hmain := main_eq_rank (.ok c1) gs true llm2 true rW st0 _ _
      (node_input_enhancer_ok c1 st0) (node_google_scraper_nonskip gs _ hq)
    by_cases hs : cseLoop gs ((enhMerge c1 st0).search_queries.getD []) = []
    · exact ⟨_, hmain.trans (node_lead_finder_skip _ _ _ _ (by simp [hs])),
        Or.inl rfl⟩
    · exact ⟨_, hmain.trans (node_lead_finder_rankFail _ _ _ h (by simp [hs])),
        Or.inr rfl⟩

/-- C2 — witness: Enhance succeeds with one query, every search raises
(caught per query), the Rank LLM raises (caught in the stage): the pipeline
completes with an empty ranking. -/
theorem C2_witness :
    ∃ s, main (.ok "\x7b\"search_queries\": [\"q1\"], \"business_domains\": []\x7d")
        (fun _ => .error "quota") true (.error "rank llm down") true true
        (initStateOfInput { product_name := "X", description := "Y" }) = .ok s
      ∧ (s.ranked_leads
            = (initStateOfInput { product_name := "X", description := "Y" }).ranked_leads
          ∨ s.ranked_leads = some (Json.obj [])) :=
  C2_amended (initStateOfInput { product_name := "X", description := "Y" })
    "\x7b\"search_queries\": [\"q1\"], \"business_domains\": []\x7d"
    (fun _ => .error "quota") (.error "rank llm down") true rfl

/-! ### Claim C3 -/

/-- C3 — counterexample.  A state whose `scraped_leads` maps its only query
to the empty list reaches Rank and is *not* skipped: the guard
`if not scraped_data` sees a non-empty dict (`{"q1": []}` is truthy), the
generation service is invoked and `ranked_leads` is written. -/
theorem C3_counterexample :
    main (.ok "\x7b\"search_queries\": [\"q1\"], \"business_domains\": []\x7d")
        (fun _ => .error "quota") true
        (.ok "\x7b\"high_priority\": [\"x\"]\x7d") true true
        { product_name := some "X", description := some "Y",
          features := some [], competitors := some [] }
      = .ok { product_name := some "X", description := some "Y",
              features := some [], competitors := some [],
              search_queries := some ["q1"], business_domains := some [],
              messages :=
                some ["\x7b\"search_queries\": [\"q1\"], \"business_domains\": []\x7d"],
              scraped_leads := some [("q1", [])],
              value_prop := some "X: Y. Key features include .",
              customer_profile := some "Ideal customers include businesses in .",
              ranked_leads :=
                some (Json.obj [("high_priority", Json.arr [Json.str "x"])]) }
    ∧ some (Json.obj [("high_priority", Json.arr [Json.str "x"])])
        ≠ (none : Option Json) := by
  refine ⟨rfl, ?_⟩
  simp

/-- C3 — amended: the Rank guard tests only dict emptiness.  When
`scraped_leads` is the empty mapping (or absent) the stage is skipped — no
generation-service call, no `ranked_leads`, only the unconditional synthesized
fields — for every possible service outcome; when the mapping is non-empty
(even with every query mapping to an empty list) Rank proceeds and writes
`ranked_leads`. -/
theorem C3_amended (st : LeadPipelineState) (llm2 : Except String String)
    (dW rW : Bool) :
    (st.scraped_leads.getD [] = [] →
      node_lead_finder llm2 dW rW st = .ok (withSynth st))
    ∧ (∀ content r, st.scraped_leads.getD [] ≠ [] →
        llm2 = .ok content → jsonLoads content = some r → dW = true → rW = true →
        node_lead_finder llm2 dW rW st
          = .ok { withSynth st with ranked_leads := some (rankedOrEmpty r) }) := by
  constructor
  · intro h
    exact node_lead_finder_skip _ _ _ _ h
  · intro content r h2 hc hj hdW hrW
    subst hc; subst hdW; subst hrW
    exact node_lead_finder_rankOk content r st h2 hj

/-- The concrete Rank-stage input used by the C3 witness: one query, mapped
to the empty result list. -/
def c3State : LeadPipelineState :=
  { product_name := some "X", description := some "Y",
    scraped_leads := some [("q1", [])] }

/-- C3 — witness: a non-empty `scraped_leads` with an all-empty value list
still triggers Rank and produces a `ranked_leads` record. -/
theorem C3_witness :
    node_lead_finder (.ok "\x7b\"high_priority\": []\x7d") true true c3State
      = .ok { withSynth c3State with ranked_leads := some (rankedOrEmpty (Json.obj [("high_priority", Json.arr [])])) } :=
  (C3_amended c3State (.ok "\x7b\"high_priority\": []\x7d") true true).2
    "\x7b\"high_priority\": []\x7d" (Json.obj [("high_priority", Json.arr [])])
    (by simp [c3State]) rfl rfl rfl rfl

/-! ### Claim C4 -/

/-- C4 — counterexample.  With the generation service answering scenario A's
empty-queries JSON, Discover and Rank are skipped and no
`scraped_leads`/`ranked_leads` keys appear — but the state is *not*
unchanged beyond the Enhance merge: the Rank node's unconditional first
statements have written `value_prop` and `customer_profile`. -/
theorem C4_counterexample :
    main (.ok "\x7b\"search_queries\": [], \"business_domains\": []\x7d")
        (fun _ => .error "unused") true (.ok "unused") true true
        { product_name := some "X", description := some "Y",
          features := some [], competitors := some [] }
      = .ok { product_name := some "X", description := some "Y",
              features := some [], competitors := some [],
              search_queries := some [], business_domains := some [],
              messages :=
                some ["\x7b\"search_queries\": [], \"business_domains\": []\x7d"],
              scraped_leads := none, ranked_leads := none,
              value_prop := some "X: Y. Key features include .",
              customer_profile := some "Ideal customers include businesses in ." }
    ∧ some "X: Y. Key features include ." ≠ (none : Option String) := by
  refine ⟨rfl, ?_⟩
  simp

/-- C4 — amended: when Enhance yields an empty `search_queries` sequence,
Discover and Rank are both skipped and the returned state carries no
`scraped_leads` or `ranked_leads` key; beyond the Enhance merge the only
further writes are the Rank node's unconditional `value_prop` and
`customer_profile` fields. -/
theorem C4_amended (st0 : LeadPipelineState) (c1 : String)
    (gs : String → Except String (List SearchResult)) (cseW : Bool)
    (llm2 : Except String String) (dW rW : Bool)
    (h0s : st0.scraped_leads = none) (h0r : st0.ranked_leads = none)
    (hq : jsonToStrList (InputEnhancerParser.parse c1).search_queries = []) :
    main (.ok c1) gs cseW llm2 dW rW st0 = .ok (withSynth (enhMerge c1 st0))
    ∧ (withSynth (enhMerge c1 st0)).scraped_leads = none
    ∧ (withSynth (enhMerge c1 st0)).ranked_leads = none := by
  have hq' : (enhMerge c1 st0).search_queries.getD [] = [] := by
    simp [enhMerge, hq]
  have hs : (enhMerge c1 st0).scraped_leads.getD [] = [] := by
    simp [enhMerge, h0s]
  refine ⟨?_, by simp [withSynth, enhMerge, h0s], by simp [withSynth, enhMerge, h0r]⟩
  exact (main_eq_rank _ _ _ _ _ _ _ _ _
      (node_input_enhancer_ok c1 st0) (node_google_scraper_skip _ _ _ hq')).trans
    (node_lead_finder_skip _ _ _ _ hs)

/-- The scenario A caller input: the four product fields only. -/
def c4State : LeadPipelineState :=
  { product_name := some "X", description := some "Y",
    features := some [], competitors := some [] }

/-- C4 — witness: scenario A end to end. -/
theorem C4_witness :
    main (.ok "\x7b\"search_queries\": [], \"business_domains\": []\x7d")
        (fun _ => .error "unused") true (.ok "unused") true true c4State
      = .ok (withSynth (enhMerge
          "\x7b\"search_queries\": [], \"business_domains\": []\x7d" c4State))
    ∧ (withSynth (enhMerge
          "\x7b\"search_queries\": [], \"business_domains\": []\x7d"
          c4State)).scraped_leads = none
    ∧ (withSynth (enhMerge
          "\x7b\"search_queries\": [], \"business_domains\": []\x7d"
          c4State)).ranked_leads = none :=
  C4_amended c4State
    "\x7b\"search_queries\": [], \"business_domains\": []\x7d"
    (fun _ => .error "unused") true (.ok "unused") true true rfl rfl rfl

/-! ### Claim C7 -/

/-- C7 — counterexample.  The Discover stage's write of its raw-results
debugging file is *not* guarded: when it fails, the exception propagates out
of `run_cse_scraper` and the invocation reports an HTTP 500, refuting
"never causes the pipeline invocation itself to fail". -/
theorem C7_counterexample :
    run_lead_pipeline { product_name := "X", description := "Y" }
        (.ok "\x7b\"search_queries\": [\"q1\"], \"business_domains\": []\x7d")
        (fun _ => .error "quota") false (.ok "unused") true true (.ok ())
      = .error (500, "failed to write google_webscrap_results.json") := rfl

/-- C7 — amended: the *audit-store insert* is best-effort — its outcome never
influences the invocation's response: whenever the pipeline itself completes,
the handler reports success for every possible insert outcome.  (File writes
inside the Discover and Rank stages, by contrast, are unguarded — see the
counterexample.) -/
theorem C7_amended (inp : LeadResearchInput) (llm1 : Except String String)
    (gs : String → Except String (List SearchResult)) (cseW : Bool)
    (llm2 : Except String String) (dW rW : Bool) (s : LeadPipelineState)
    (h : main llm1 gs cseW llm2 dW rW (initStateOfInput inp) = .ok s)
    (insertRes : Except String Unit) :
    run_lead_pipeline inp llm1 gs cseW llm2 dW rW insertRes
      = .ok ("success", s) := by
  simp only [run_lead_pipeline, h]

/-- C7 — witness: a failing Supabase insert after a completed pipeline still
yields the success response. -/
theorem C7_witness :
    run_lead_pipeline { product_name := "X", description := "Y" }
        (.ok "\x7b\"search_queries\": [], \"business_domains\": []\x7d")
        (fun _ => .error "unused") true (.ok "unused") true true
        (.error "supabase down")
      = .ok ("success",
          withSynth (enhMerge "\x7b\"search_queries\": [], \"business_domains\": []\x7d"
            (initStateOfInput { product_name := "X", description := "Y" }))) :=
  C7_amended { product_name := "X", description := "Y" }
    (.ok "\x7b\"search_queries\": [], \"business_domains\": []\x7d")
    (fun _ => .error "unused") true (.ok "unused") true true
    (withSynth (enhMerge "\x7b\"search_queries\": [], \"business_domains\": []\x7d"
      (initStateOfInput { product_name := "X", description := "Y" })))
    rfl (.error "supabase down")

/-! ### Claim C8 -/

/-- `clean_bing_url` in terms of the decoded `u` parameter: substitute the
decoded text exactly when it starts with `"http"`. -/
theorem clean_bing_url_eq (url : String) :
    clean_bing_url url
      = match uDecoded url with
        | none => url
        | some d => if List.isPrefixOf ['h', 't', 't', 'p'] d then (⟨d⟩ : String) else url := by
  unfold clean_bing_url uDecoded
  cases firstParam ['u'] (urlQuery url.data) with
  | none => rfl
  | some enc =>
      cases hb : b64decode enc with
      | none => simp [hb]
      | some bytes => simp [hb]

/-- C8 — counterexample.  The `u` parameter of this URL base64-decodes to
`"httpgarbage"`, which is *not* a well-formed absolute URL, yet
`clean_bing_url` substitutes it (the code checks only
`decoded.startswith("http")`) — refuting "substitutes the decoded value if
and only if it is a well-formed absolute URL". -/
theorem C8_counterexample :
    clean_bing_url "https://search.example/go?u=aHR0cGdhcmJhZ2U=" = "httpgarbage"
    ∧ specIsAbsoluteUrl "httpgarbage" = false
    ∧ "httpgarbage" ≠ "https://search.example/go?u=aHR0cGdhcmJhZ2U=" := by
  refine ⟨rfl, rfl, ?_⟩
  decide

/-- C8 — amended: `clean_bing_url` extracts the first `u` query parameter,
base64-decodes it, and substitutes the decoded text if and only if it starts
with `"http"`; a missing parameter or a failing decode leaves the URL
unchanged, and the function is total (the source wraps the body in a
catch-all returning the original URL). -/
theorem C8_amended (url : String) :
    (uDecoded url = none → clean_bing_url url = url)
    ∧ (∀ d, uDecoded url = some d → List.isPrefixOf ['h', 't', 't', 'p'] d = false →
        clean_bing_url url = url)
    ∧ (∀ d, uDecoded url = some d → List.isPrefixOf ['h', 't', 't', 'p'] d = true →
        clean_bing_url url = (⟨d⟩ : String)) := by
  refine ⟨?_, ?_, ?_⟩
  · intro h
    rw [clean_bing_url_eq, h]
  · intro d hd hpre
    rw [clean_bing_url_eq, hd]
    simp [hpre]
  · intro d hd hpre
    rw [clean_bing_url_eq, hd]
    simp [hpre]

/-- C8 — witness: scenario C — a wrapped URL canonicalizes to its true
destination, and a malformed `u` parameter (undecodable base64) leaves the
URL unchanged. -/
theorem C8_witness :
    clean_bing_url "https://search.example/go?u=aHR0cHM6Ly90YXJnZXQuZXhhbXBsZQ=="
        = "https://target.example"
    ∧ clean_bing_url "https://search.example/go?u=abc"
        = "https://search.example/go?u=abc" :=
  ⟨(C8_amended "https://search.example/go?u=aHR0cHM6Ly90YXJnZXQuZXhhbXBsZQ==").2.2
      "https://target.example".data rfl rfl,
    (C8_amended "https://search.example/go?u=abc").1 rfl⟩

end ReachGen
